import Mathlib

/-!
Verification of the mesh normalization transform, the sphere viewpoint
sampler, and the batch rendering driver of render_3d.py.

The mesh pipeline (ObjectRenderer.render_object, lines 60 to 63 of the
source) is embedded over the rationals: vertices are triples of rationals,
and the three numpy statements

  mesh.vertices -= mesh.center_mass
  scale = 1.0 / max(mesh.vertices.max(axis=0) - mesh.vertices.min(axis=0))
  mesh.vertices *= scale

become the functions centered, max_extent and normalize below.  The
viewpoint sampler (ObjectRenderer.random_viewpoint, lines 37 to 47) is
embedded over the reals, and the batch driver
(ObjectRenderer.render_all_objects, lines 134 to 149) as a fold over a
list of file names.
-/

namespace Render3D

/-- A vertex: three rational coordinates, standing for the three floating
point components of a row of mesh.vertices. -/
abbrev Vec3 : Type := ℚ × ℚ × ℚ

/-- A mesh, reduced to what the normalization statements touch: the ordered
list of its vertex positions. -/
abbrev Mesh : Type := List Vec3

/-- Componentwise subtraction of vertices, as in mesh.vertices -= c. -/
def vsub (a b : Vec3) : Vec3 := (a.1 - b.1, a.2.1 - b.2.1, a.2.2 - b.2.2)

/-- Componentwise scaling of a vertex, as in mesh.vertices *= s. -/
def vsmul (s : ℚ) (a : Vec3) : Vec3 := (s * a.1, s * a.2.1, s * a.2.2)

/-- The list of x coordinates of a mesh, mesh.vertices column 0. -/
def xs (m : Mesh) : List ℚ := m.map (fun v => v.1)

/-- The list of y coordinates of a mesh, mesh.vertices column 1. -/
def ys (m : Mesh) : List ℚ := m.map (fun v => v.2.1)

/-- The list of z coordinates of a mesh, mesh.vertices column 2. -/
def zs (m : Mesh) : List ℚ := m.map (fun v => v.2.2)

/-- Maximum of a list of rationals, numpy max along an axis; 0 on the
empty list, on which numpy instead raises a ValueError. -/
def listMax : List ℚ → ℚ
  | [] => 0
  | a :: l => l.foldl max a

/-- Minimum of a list of rationals, numpy min along an axis; 0 on the
empty list, on which numpy instead raises a ValueError. -/
def listMin : List ℚ → ℚ
  | [] => 0
  | a :: l => l.foldl min a

/-- Arithmetic mean of a list of rationals (division by zero yields 0 on
the empty list). -/
def mean (l : List ℚ) : ℚ := l.sum / (l.length : ℚ)

/-- Modelled from the spec: the source subtracts mesh.center_mass, a
property of the external trimesh library whose code is not part of this
repository.  The spec glossary defines the centroid / center of mass as
the mean position of the vertices, which is what we take here. -/
def center_mass (m : Mesh) : Vec3 := (mean (xs m), mean (ys m), mean (zs m))

/-- Line 61 of the source: every vertex shifted by minus the center of
mass. -/
def centered (m : Mesh) : Mesh := m.map (fun v => vsub v (center_mass m))

/-- Extent of one coordinate axis: max minus min over all vertices. -/
def extent (l : List ℚ) : ℚ := listMax l - listMin l

/-- Line 62 of the source, inner part: the largest of the three axis
aligned bounding box extents. -/
def max_extent (m : Mesh) : ℚ := max (extent (xs m)) (max (extent (ys m)) (extent (zs m)))

/-- Lines 61 to 63 of the source: center at the center of mass, then scale
every vertex by 1 / max_extent, the extents being taken after centering
exactly as the code does. -/
def normalize (m : Mesh) : Mesh :=
  (centered m).map (fun v => vsmul (1 / max_extent (centered m)) v)

/-! ### List level lemmas -/

lemma foldl_max_affine (s b : ℚ) (hs : 0 ≤ s) :
    ∀ (l : List ℚ) (a : ℚ),
      (l.map (fun x => s * x + b)).foldl max (s * a + b) = s * l.foldl max a + b := by
  intro l
  induction l with
  | nil => intro a; simp
  | cons x t ih =>
      intro a
      simp only [List.map_cons, List.foldl_cons]
      have hmax : max (s * a + b) (s * x + b) = s * max a x + b := by
        rw [max_add_add_right, mul_max_of_nonneg _ _ hs]
      rw [hmax, ih (max a x)]

lemma foldl_min_affine (s b : ℚ) (hs : 0 ≤ s) :
    ∀ (l : List ℚ) (a : ℚ),
      (l.map (fun x => s * x + b)).foldl min (s * a + b) = s * l.foldl min a + b := by
  intro l
  induction l with
  | nil => intro a; simp
  | cons x t ih =>
      intro a
      simp only [List.map_cons, List.foldl_cons]
      have hmin : min (s * a + b) (s * x + b) = s * min a x + b := by
        rw [min_add_add_right, mul_min_of_nonneg _ _ hs]
      rw [hmin, ih (min a x)]

lemma listMax_map_affine (s b : ℚ) (hs : 0 ≤ s) (l : List ℚ) (hl : l ≠ []) :
    listMax (l.map (fun x => s * x + b)) = s * listMax l + b := by
  cases l with
  | nil => exact absurd rfl hl
  | cons a t => simpa [listMax] using foldl_max_affine s b hs t a

lemma listMin_map_affine (s b : ℚ) (hs : 0 ≤ s) (l : List ℚ) (hl : l ≠ []) :
    listMin (l.map (fun x => s * x + b)) = s * listMin l + b := by
  cases l with
  | nil => exact absurd rfl hl
  | cons a t => simpa [listMin] using foldl_min_affine s b hs t a

lemma sum_map_affine (s b : ℚ) (l : List ℚ) :
    (l.map (fun x => s * x + b)).sum = s * l.sum + (l.length : ℚ) * b := by
  induction l with
  | nil => simp
  | cons x t ih =>
      simp only [List.map_cons, List.sum_cons, ih, List.length_cons]
      push_cast
      ring

lemma mean_map_affine (s b : ℚ) (l : List ℚ) (hl : l ≠ []) :
    mean (l.map (fun x => s * x + b)) = s * mean l + b := by
  have hn : (l.length : ℚ) ≠ 0 := by
    have : l.length ≠ 0 := by
      intro h
      exact hl (List.length_eq_zero.mp h)
    exact_mod_cast this
  unfold mean
  rw [List.length_map, sum_map_affine]
  field_simp
  ring

lemma map_sub_as_affine (c : ℚ) (l : List ℚ) :
    l.map (fun x => x - c) = l.map (fun x => 1 * x + (-c)) := by
  simp only [one_mul, sub_eq_add_neg]

lemma map_mul_as_affine (s : ℚ) (l : List ℚ) :
    l.map (fun x => s * x) = l.map (fun x => s * x + 0) := by
  simp only [add_zero]

lemma extent_map_sub (c : ℚ) (l : List ℚ) (hl : l ≠ []) :
    extent (l.map (fun x => x - c)) = extent l := by
  unfold extent
  rw [map_sub_as_affine, listMax_map_affine 1 (-c) (by norm_num) l hl,
    listMin_map_affine 1 (-c) (by norm_num) l hl]
  ring

lemma extent_map_mul (s : ℚ) (hs : 0 ≤ s) (l : List ℚ) (hl : l ≠ []) :
    extent (l.map (fun x => s * x)) = s * extent l := by
  unfold extent
  rw [map_mul_as_affine, listMax_map_affine s 0 hs l hl, listMin_map_affine s 0 hs l hl]
  ring

lemma mean_map_sub (c : ℚ) (l : List ℚ) (hl : l ≠ []) :
    mean (l.map (fun x => x - c)) = mean l - c := by
  rw [map_sub_as_affine, mean_map_affine 1 (-c) l hl]
  ring

lemma mean_map_mul (s : ℚ) (l : List ℚ) (hl : l ≠ []) :
    mean (l.map (fun x => s * x)) = s * mean l := by
  rw [map_mul_as_affine, mean_map_affine s 0 l hl]
  ring

/-! ### Mesh level lemmas -/

lemma xs_ne_nil {m : Mesh} (hm : m ≠ []) : xs m ≠ [] := by
  simpa [xs] using hm

lemma ys_ne_nil {m : Mesh} (hm : m ≠ []) : ys m ≠ [] := by
  simpa [ys] using hm

lemma zs_ne_nil {m : Mesh} (hm : m ≠ []) : zs m ≠ [] := by
  simpa [zs] using hm

lemma xs_centered (m : Mesh) :
    xs (centered m) = (xs m).map (fun x => x - mean (xs m)) := by
  simp [xs, centered, vsub, center_mass, List.map_map, Function.comp]

lemma ys_centered (m : Mesh) :
    ys (centered m) = (ys m).map (fun x => x - mean (ys m)) := by
  simp [ys, centered, vsub, center_mass, List.map_map, Function.comp]

lemma zs_centered (m : Mesh) :
    zs (centered m) = (zs m).map (fun x => x - mean (zs m)) := by
  simp [zs, centered, vsub, center_mass, List.map_map, Function.comp]

lemma centered_ne_nil {m : Mesh} (hm : m ≠ []) : centered m ≠ [] := by
  simpa [centered] using hm

lemma center_mass_centered (m : Mesh) (hm : m ≠ []) :
    center_mass (centered m) = (0, 0, 0) := by
  unfold center_mass
  rw [xs_centered, ys_centered, zs_centered,
    mean_map_sub _ _ (xs_ne_nil hm), mean_map_sub _ _ (ys_ne_nil hm),
    mean_map_sub _ _ (zs_ne_nil hm)]
  simp

lemma max_extent_centered (m : Mesh) (hm : m ≠ []) :
    max_extent (centered m) = max_extent m := by
  unfold max_extent
  rw [xs_centered, ys_centered, zs_centered,
    extent_map_sub _ _ (xs_ne_nil hm), extent_map_sub _ _ (ys_ne_nil hm),
    extent_map_sub _ _ (zs_ne_nil hm)]

lemma xs_map_vsmul (s : ℚ) (m : Mesh) :
    xs (m.map (fun v => vsmul s v)) = (xs m).map (fun x => s * x) := by
  simp [xs, vsmul, List.map_map, Function.comp]

lemma ys_map_vsmul (s : ℚ) (m : Mesh) :
    ys (m.map (fun v => vsmul s v)) = (ys m).map (fun x => s * x) := by
  simp [ys, vsmul, List.map_map, Function.comp]

lemma zs_map_vsmul (s : ℚ) (m : Mesh) :
    zs (m.map (fun v => vsmul s v)) = (zs m).map (fun x => s * x) := by
  simp [zs, vsmul, List.map_map, Function.comp]

lemma max_extent_map_vsmul (s : ℚ) (hs : 0 ≤ s) (m : Mesh) (hm : m ≠ []) :
    max_extent (m.map (fun v => vsmul s v)) = s * max_extent m := by
  unfold max_extent
  rw [xs_map_vsmul, ys_map_vsmul, zs_map_vsmul,
    extent_map_mul s hs _ (xs_ne_nil hm), extent_map_mul s hs _ (ys_ne_nil hm),
    extent_map_mul s hs _ (zs_ne_nil hm),
    ← mul_max_of_nonneg _ _ hs, ← mul_max_of_nonneg _ _ hs]

lemma center_mass_map_vsmul (s : ℚ) (m : Mesh) (hm : m ≠ []) :
    center_mass (m.map (fun v => vsmul s v)) =
      vsmul s (center_mass m) := by
  unfold center_mass
  rw [xs_map_vsmul, ys_map_vsmul, zs_map_vsmul,
    mean_map_mul s _ (xs_ne_nil hm), mean_map_mul s _ (ys_ne_nil hm),
    mean_map_mul s _ (zs_ne_nil hm)]
  rfl

lemma foldl_max_mono_seed (l : List ℚ) :
    ∀ a b : ℚ, a ≤ b → l.foldl max a ≤ l.foldl max b := by
  induction l with
  | nil => intro a b h; simpa using h
  | cons x t ih =>
      intro a b h
      simp only [List.foldl_cons]
      exact ih _ _ (max_le_max_right x h)

lemma foldl_min_le_foldl_max (l : List ℚ) :
    ∀ a : ℚ, l.foldl min a ≤ l.foldl max a := by
  induction l with
  | nil => intro a; simp
  | cons x t ih =>
      intro a
      simp only [List.foldl_cons]
      exact le_trans (ih (min a x))
        (foldl_max_mono_seed t _ _ (le_trans (min_le_max) (le_refl _)))

lemma extent_nonneg (l : List ℚ) : 0 ≤ extent l := by
  unfold extent
  cases l with
  | nil => simp [listMax, listMin]
  | cons a t =>
      simp only [listMax, listMin, sub_nonneg]
      exact foldl_min_le_foldl_max t a

lemma max_extent_nonneg (m : Mesh) : 0 ≤ max_extent m :=
  le_trans (extent_nonneg (xs m)) (le_max_left _ _)

lemma normalize_def (m : Mesh) :
    normalize m = (centered m).map (fun v => vsmul (1 / max_extent (centered m)) v) := rfl

lemma normalize_ne_nil {m : Mesh} (hm : m ≠ []) : normalize m ≠ [] := by
  simpa [normalize, centered] using hm

lemma center_mass_normalize (m : Mesh) (hm : m ≠ []) :
    center_mass (normalize m) = (0, 0, 0) := by
  rw [normalize_def, center_mass_map_vsmul _ _ (centered_ne_nil hm),
    center_mass_centered m hm]
  simp [vsmul]

lemma max_extent_normalize (m : Mesh) (hm : m ≠ []) (he : 0 < max_extent m) :
    max_extent (normalize m) = 1 := by
  have hc : max_extent (centered m) = max_extent m := max_extent_centered m hm
  have hpos : 0 < max_extent (centered m) := by rw [hc]; exact he
  rw [normalize_def,
    max_extent_map_vsmul _ (by positivity) _ (centered_ne_nil hm)]
  field_simp

lemma vsub_zero (v : Vec3) : vsub v ((0 : ℚ), (0 : ℚ), (0 : ℚ)) = v := by
  cases v with
  | mk a w =>
      cases w with
      | mk b c => simp [vsub]

lemma vsmul_one (v : Vec3) : vsmul 1 v = v := by
  cases v with
  | mk a w =>
      cases w with
      | mk b c => simp [vsmul]

/-! ### Concrete meshes from the spec scenarios -/

/-- The cube with vertices at (1, 1, 1) up to sign on each coordinate. -/
def cube : Mesh :=
  [(1, 1, 1), (1, 1, -1), (1, -1, 1), (1, -1, -1),
   (-1, 1, 1), (-1, 1, -1), (-1, -1, 1), (-1, -1, -1)]

/-- A mesh whose two vertices coincide: every bounding box extent is 0. -/
def coincidentMesh : Mesh := [(1, 1, 1), (1, 1, 1)]

/-- The triangle (0,0,0), (2,0,0), (0,0,0) of the spec scenario: two
coincident vertices, extent 0 on the y and z axes but extent 2 on x. -/
def triMesh : Mesh := [(0, 0, 0), (2, 0, 0), (0, 0, 0)]

/-! ### Claim theorems about normalization -/

/-- C1: For every mesh with at least one non-coincident vertex (nonempty
with positive maximal extent), normalization puts the center of mass at
the origin and makes the largest axis aligned bounding box extent equal 1;
and on the cube with vertices at (1,1,1) up to signs it scales every
vertex by one half, yielding vertices with coordinates one half up to
signs. -/
theorem normalize_spec :
    (∀ m : Mesh, m ≠ [] → 0 < max_extent m →
        center_mass (normalize m) = (0, 0, 0) ∧ max_extent (normalize m) = 1) ∧
    normalize cube =
      [(1/2, 1/2, 1/2), (1/2, 1/2, -1/2), (1/2, -1/2, 1/2), (1/2, -1/2, -1/2),
       (-1/2, 1/2, 1/2), (-1/2, 1/2, -1/2), (-1/2, -1/2, 1/2), (-1/2, -1/2, -1/2)] := by
  constructor
  · intro m hm he
    exact ⟨center_mass_normalize m hm, max_extent_normalize m hm he⟩
  · norm_num [cube, normalize, centered, center_mass, mean, xs, ys, zs, vsub,
      vsmul, max_extent, extent, listMax, listMin]

/-- Witness for C1 at the concrete mesh with vertices (0,0,0) and
(1,2,3). -/
theorem normalize_spec_witness :
    center_mass (normalize [((0 : ℚ), (0 : ℚ), (0 : ℚ)), (1, 2, 3)]) = (0, 0, 0) ∧
    max_extent (normalize [((0 : ℚ), (0 : ℚ), (0 : ℚ)), (1, 2, 3)]) = 1 :=
  normalize_spec.1 _ (by simp)
    (by norm_num [max_extent, extent, xs, ys, zs, listMax, listMin])

/-- C2: At the all-coincident mesh with two copies of the vertex (1,1,1),
the divisor computed on line 62 of the source (the largest bounding box
extent after centering) is zero, so the code evaluates 1.0 / 0.0 there;
the source defines no DegenerateMeshError anywhere, so no such error can
be raised. -/
theorem degenerate_divisor_zero :
    max_extent (centered coincidentMesh) = 0 ∧ coincidentMesh ≠ [] := by
  constructor
  · norm_num [coincidentMesh, centered, center_mass, mean, xs, ys, zs, vsub,
      max_extent, extent, listMax, listMin]
  · simp [coincidentMesh]

/-- C5: Normalization is idempotent: on every mesh on which it succeeds
(nonempty with positive maximal extent, so the scale divisor is nonzero),
normalizing a second time changes nothing, exactly over the rationals. -/
theorem normalize_idempotent (m : Mesh) (hm : m ≠ []) (he : 0 < max_extent m) :
    normalize (normalize m) = normalize m := by
  have hNne : normalize m ≠ [] := normalize_ne_nil hm
  have hcm : center_mass (normalize m) = (0, 0, 0) := center_mass_normalize m hm
  have hme : max_extent (normalize m) = 1 := max_extent_normalize m hm he
  have hcent : centered (normalize m) = normalize m := by
    unfold centered
    rw [hcm]
    have hf : (fun v : Vec3 => vsub v ((0 : ℚ), (0 : ℚ), (0 : ℚ))) = fun v => v :=
      funext vsub_zero
    rw [hf]
    simp
  rw [normalize_def (normalize m), hcent, hme]
  norm_num
  have hg : (fun v : Vec3 => vsmul 1 v) = fun v => v := funext vsmul_one
  rw [hg]
  simp

/-- Witness for C5 at the concrete mesh with vertices (0,0,0) and
(2,0,0). -/
theorem normalize_idempotent_witness :
    normalize (normalize [((0 : ℚ), (0 : ℚ), (0 : ℚ)), (2, 0, 0)]) =
      normalize [((0 : ℚ), (0 : ℚ), (0 : ℚ)), (2, 0, 0)] :=
  normalize_idempotent _ (by simp)
    (by norm_num [max_extent, extent, xs, ys, zs, listMax, listMin])

/-- C7 counterexample: the triangle (0,0,0), (2,0,0), (0,0,0) is not
degenerate for the code: its largest bounding box extent after centering
is 2, not 0, so the scale divisor on line 62 is well defined and the code
does not fail on this mesh. -/
theorem triangle_not_degenerate : max_extent (centered triMesh) = 2 := by
  norm_num [triMesh, centered, center_mass, mean, xs, ys, zs, vsub,
    max_extent, extent, listMax, listMin]

/-- C7 amended: on the triangle (0,0,0), (2,0,0), (0,0,0) normalization
succeeds: the center of mass is (2/3, 0, 0), the largest extent is 2, and
scaling by one half yields the vertices (-1/3,0,0), (2/3,0,0), (-1/3,0,0);
the scale divisor is nonzero because only the y and z extents vanish. -/
theorem triangle_normalize_succeeds :
    normalize triMesh = [(-1/3, 0, 0), (2/3, 0, 0), (-1/3, 0, 0)] ∧
    max_extent (centered triMesh) ≠ 0 := by
  constructor
  · norm_num [triMesh, normalize, centered, center_mass, mean, xs, ys, zs,
      vsub, vsmul, max_extent, extent, listMax, listMin]
  · norm_num [triMesh, centered, center_mass, mean, xs, ys, zs, vsub,
      max_extent, extent, listMax, listMin]

/-! ### The viewpoint sampler (ObjectRenderer.random_viewpoint)

Lines 37 to 47 of the source: two draws from the global generator,
theta = random.uniform(0, 2 pi) and phi = random.uniform(0, pi), a fixed
radius of 3.0, and the spherical to Cartesian conversion. -/

/-- The fixed camera radius of line 41 of the source. -/
noncomputable def radius : ℝ := 3

/-- Python random.uniform(a, b), which returns a + (b - a) * u for a unit
draw u from the generator. -/
noncomputable def uniformDraw (a b u : ℝ) : ℝ := a + (b - a) * u

/-- Lines 43 to 47 of the source as a function of the two angles drawn:
the spherical to Cartesian conversion at the fixed radius. -/
noncomputable def random_viewpoint (theta phi : ℝ) : ℝ × ℝ × ℝ :=
  (radius * Real.sin phi * Real.cos theta,
   radius * Real.sin phi * Real.sin theta,
   radius * Real.cos phi)

/-- Modelled from the spec: the interface sample_viewpoint(radius) with an
explicit radius argument; the source function random_viewpoint fixes the
radius at 3.0 instead of taking it as a parameter. -/
noncomputable def sample_viewpoint (R theta phi : ℝ) : ℝ × ℝ × ℝ :=
  (R * Real.sin phi * Real.cos theta,
   R * Real.sin phi * Real.sin theta,
   R * Real.cos phi)

/-- Euclidean distance of a point from the origin. -/
noncomputable def distOrigin (p : ℝ × ℝ × ℝ) : ℝ :=
  Real.sqrt (p.1 ^ 2 + p.2.1 ^ 2 + p.2.2 ^ 2)

/-- The global generator modelled as a stream of unit draws indexed by how
many draws have been consumed; random_viewpoint consumes the next two
draws and advances the index by two. -/
noncomputable def random_viewpoint_run (f : ℕ → ℝ) (k : ℕ) : (ℝ × ℝ × ℝ) × ℕ :=
  (random_viewpoint (uniformDraw 0 (2 * Real.pi) (f k))
      (uniformDraw 0 Real.pi (f (k + 1))),
   k + 2)

/-! ### Claim theorems about the viewpoint sampler -/

/-- C3: theta is drawn in the interval from 0 inclusive to 2 pi exclusive
and phi in the interval from 0 inclusive to pi exclusive (the image of a
unit draw under random.uniform), the radius is fixed at 3.0, the returned
point is the spherical to Cartesian conversion of the draws, and at
theta = 0, phi = pi / 2 the sampler returns (3, 0, 0). -/
theorem random_viewpoint_spec :
    (∀ u : ℝ, 0 ≤ u → u < 1 →
        uniformDraw 0 (2 * Real.pi) u ∈ Set.Ico 0 (2 * Real.pi) ∧
        uniformDraw 0 Real.pi u ∈ Set.Ico 0 Real.pi) ∧
    radius = 3 ∧
    (∀ theta phi : ℝ, random_viewpoint theta phi =
        (3 * Real.sin phi * Real.cos theta, 3 * Real.sin phi * Real.sin theta,
         3 * Real.cos phi)) ∧
    random_viewpoint 0 (Real.pi / 2) = (3, 0, 0) := by
  refine ⟨?_, rfl, ?_, ?_⟩
  · intro u h0 h1
    have hpi : 0 < Real.pi := Real.pi_pos
    constructor
    · constructor
      · simp only [uniformDraw, sub_zero, zero_add]
        positivity
      · simp only [uniformDraw, sub_zero, zero_add]
        nlinarith
    · constructor
      · simp only [uniformDraw, sub_zero, zero_add]
        positivity
      · simp only [uniformDraw, sub_zero, zero_add]
        nlinarith
  · intro theta phi
    simp [random_viewpoint, radius]
  · simp [random_viewpoint, radius]

/-- Witness for C3 at the unit draw one half. -/
theorem random_viewpoint_spec_witness :
    uniformDraw 0 (2 * Real.pi) (1 / 2) ∈ Set.Ico 0 (2 * Real.pi) ∧
    random_viewpoint 0 (Real.pi / 2) = (3, 0, 0) :=
  ⟨(random_viewpoint_spec.1 (1 / 2) (by norm_num) (by norm_num)).1,
   random_viewpoint_spec.2.2.2⟩

/-- C4: For every radius R greater than 0 and every pair of draws, the
sampled point is at Euclidean distance exactly R from the origin; the
source function is the R = 3 instance of the sampler. -/
theorem sample_viewpoint_on_sphere :
    (∀ R theta phi : ℝ, 0 < R → distOrigin (sample_viewpoint R theta phi) = R) ∧
    (∀ theta phi : ℝ, random_viewpoint theta phi = sample_viewpoint 3 theta phi) := by
  constructor
  · intro R theta phi hR
    have hth := Real.sin_sq_add_cos_sq theta
    have hph := Real.sin_sq_add_cos_sq phi
    have hsum : (R * Real.sin phi * Real.cos theta) ^ 2 +
        (R * Real.sin phi * Real.sin theta) ^ 2 + (R * Real.cos phi) ^ 2 = R ^ 2 := by
      linear_combination R ^ 2 * Real.sin phi ^ 2 * hth + R ^ 2 * hph
    simp only [distOrigin, sample_viewpoint]
    rw [hsum]
    exact Real.sqrt_sq hR.le
  · intro theta phi
    simp [random_viewpoint, sample_viewpoint, radius]

/-- Witness for C4 at radius 3, theta 0, phi pi / 2. -/
theorem sample_viewpoint_on_sphere_witness :
    distOrigin (sample_viewpoint 3 0 (Real.pi / 2)) = 3 :=
  sample_viewpoint_on_sphere.1 3 0 (Real.pi / 2) (by norm_num)

/-- C8: The sampler retains no state between calls: its output is a
function of the two draws it consumes alone, so two calls at any two
points of the draw stream history that see equal draws return equal
points. -/
theorem random_viewpoint_stateless (f g : ℕ → ℝ) (k j : ℕ)
    (h1 : f k = g j) (h2 : f (k + 1) = g (j + 1)) :
    (random_viewpoint_run f k).1 = (random_viewpoint_run g j).1 := by
  simp [random_viewpoint_run, h1, h2]

/-- Witness for C8: the constant zero stream at histories of length 0 and
5. -/
theorem random_viewpoint_stateless_witness :
    (random_viewpoint_run (fun _ => (0 : ℝ)) 0).1 =
      (random_viewpoint_run (fun _ => (0 : ℝ)) 5).1 :=
  random_viewpoint_stateless (fun _ => (0 : ℝ)) (fun _ => (0 : ℝ)) 0 5 rfl rfl

/-! ### render_object and the batch driver

ObjectRenderer.render_object (lines 49 to 131) is embedded at the level of
its observable behaviour: what it loads is either a triangle mesh or some
other object (a trimesh Scene, say); on a non mesh it prints a message and
returns None without touching the mesh, the GL state or the file system;
on a mesh it normalizes, draws, writes one image file and returns the
output path.  ObjectRenderer.render_all_objects (lines 134 to 149) walks
the data directory, keeps the file names ending in .obj, and wraps each
render_object call in try/except, appending the returned value on success
and only printing on an exception. -/

/-- A file name, as the list of its characters. -/
abbrev FileName : Type := List Char

/-- Python str.endswith: the argument is a suffix of the name. -/
def ends_with (f ext : FileName) : Bool := ext.isSuffixOf f

/-- The literal .obj extension of line 140 of the source. -/
def objExt : FileName := ['.', 'o', 'b', 'j']

/-- What trimesh.load returned: a triangle mesh or anything else. -/
inductive LoadedObj : Type where
  | triMesh (m : Mesh)
  | nonMesh

/-- The observable side effects of one render_object call. -/
inductive REffect : Type where
  | normalizeE (result : Mesh)
  | drawE
  | writeE (path : String)

/-- The output file name of line 122 of the source. -/
def outputPath (base : String) (n : ℕ) : String :=
  "renders/" ++ base ++ "_view_" ++ toString n ++ ".png"

/-- ObjectRenderer.render_object: on a non mesh object, return None with no
effects (lines 54 to 56); on a triangle mesh, normalize it, draw it, write
the image and return its path (lines 58 to 131).  The randomness used for
the name suffix enters as the argument n. -/
def render_object (o : LoadedObj) (base : String) (n : ℕ) :
    Option String × List REffect :=
  match o with
  | LoadedObj.nonMesh => (none, [])
  | LoadedObj.triMesh m =>
      (some (outputPath base n),
       [REffect.normalizeE (normalize m), REffect.drawE,
        REffect.writeE (outputPath base n)])

/-- The loop body of render_all_objects without the extension filter: fold
the try/except over a list of files, appending the result of a successful
call and skipping a file whose call raised. -/
def renderLoop {α : Type} (render : FileName → Except String (Option α))
    (files : List FileName) : List (Option α) :=
  files.foldl
    (fun acc f =>
      match render f with
      | Except.ok o => acc ++ [o]
      | Except.error _ => acc)
    []

/-- ObjectRenderer.render_all_objects, lines 134 to 149: for every file
name ending in .obj, call render inside try/except; append the returned
value when no exception was raised, otherwise print and continue; return
the accumulated list. -/
def render_all_objects {α : Type} (render : FileName → Except String (Option α))
    (files : List FileName) : List (Option α) :=
  files.foldl
    (fun acc f =>
      if ends_with f objExt then
        match render f with
        | Except.ok o => acc ++ [o]
        | Except.error _ => acc
      else acc)
    []

/-- The output paths of the meshes that rendered successfully: files with
the .obj extension whose render call raised no exception and returned an
actual path rather than None. -/
def successPaths {α : Type} (render : FileName → Except String (Option α))
    (files : List FileName) : List α :=
  (files.filter (fun f => ends_with f objExt)).filterMap
    (fun f => ((render f).toOption).bind id)

/-- A render function that loads a non mesh object: no exception, but the
call returns None, as render_object does on lines 54 to 56. -/
def noneRender : FileName → Except String (Option ℕ) :=
  fun _ => Except.ok none

/-! ### Helper lemmas for the batch driver -/

lemma renderLoop_go {α : Type} (render : FileName → Except String (Option α)) :
    ∀ (files : List FileName) (acc : List (Option α)),
      files.foldl
          (fun acc f =>
            match render f with
            | Except.ok o => acc ++ [o]
            | Except.error _ => acc)
          acc
        = acc ++ files.filterMap (fun f => (render f).toOption) := by
  intro files
  induction files with
  | nil => intro acc; simp
  | cons f t ih =>
      intro acc
      simp only [List.foldl_cons]
      cases hrf : render f with
      | ok o =>
          rw [ih (acc ++ [o])]
          simp [List.filterMap_cons, hrf, Except.toOption]
      | error e =>
          rw [ih acc]
          simp [List.filterMap_cons, hrf, Except.toOption]

lemma render_all_objects_go {α : Type}
    (render : FileName → Except String (Option α)) :
    ∀ (files : List FileName) (acc : List (Option α)),
      files.foldl
          (fun acc f =>
            if ends_with f objExt then
              match render f with
              | Except.ok o => acc ++ [o]
              | Except.error _ => acc
            else acc)
          acc
        = acc ++
            (files.filter (fun f => ends_with f objExt)).filterMap
              (fun f => (render f).toOption) := by
  intro files
  induction files with
  | nil => intro acc; simp
  | cons f t ih =>
      intro acc
      simp only [List.foldl_cons]
      cases he : ends_with f objExt with
      | true =>
          cases hrf : render f with
          | ok o =>
              simp only [he, if_true]
              rw [ih (acc ++ [o])]
              simp [List.filter_cons, he, List.filterMap_cons, hrf, Except.toOption]
          | error e =>
              simp only [he, if_true]
              rw [ih acc]
              simp [List.filter_cons, he, List.filterMap_cons, hrf, Except.toOption]
      | false =>
          rw [if_neg (by simp [he]), ih acc]
          simp [List.filter_cons, he]

/-! ### Claim theorems about render_object and the batch driver -/

/-- C9: When the loaded object is not a triangle mesh, render_object
returns None and produces no effect at all: no normalization, no drawing,
no file write, and no exception. -/
theorem render_object_skips_non_mesh (base : String) (n : ℕ) :
    render_object LoadedObj.nonMesh base n = (none, []) := rfl

/-- C6 counterexample: on the single file tri.obj whose render call raises
no exception but returns None (a non mesh load), the driver returns the
list holding None, which is not the list of output paths of the
successfully rendered meshes (the empty list): the returned list can hold
None entries. -/
theorem render_all_objects_keeps_none :
    render_all_objects noneRender [['t', 'r', 'i', '.', 'o', 'b', 'j']] ≠
      (successPaths noneRender [['t', 'r', 'i', '.', 'o', 'b', 'j']]).map some := by
  decide

/-- C6 amended: an exception from one render call is caught, logged and
skipped, and the loop continues with the remaining files, so no single bad
input aborts the run; the driver returns, in file order, exactly the
values returned by the calls that raised no exception, which are output
paths for rendered meshes but None for objects skipped as non meshes. -/
theorem render_all_objects_skips_errors {α : Type}
    (render : FileName → Except String (Option α)) (files : List FileName) :
    render_all_objects render files =
      (files.filter (fun f => ends_with f objExt)).filterMap
        (fun f => (render f).toOption) := by
  unfold render_all_objects
  exact render_all_objects_go render files []

/-- C10: The driver passes to render_object exactly the files whose names
end in .obj: it behaves as the unfiltered try/except loop run on the
filtered file list, and a file is in the filtered list exactly when it is
one of the walked files and its name ends in .obj. -/
theorem render_all_objects_filters_obj {α : Type}
    (render : FileName → Except String (Option α)) (files : List FileName) :
    render_all_objects render files =
        renderLoop render (files.filter (fun f => ends_with f objExt)) ∧
    ∀ f : FileName,
      f ∈ files.filter (fun f => ends_with f objExt) ↔
        f ∈ files ∧ ends_with f objExt = true := by
  constructor
  · unfold render_all_objects renderLoop
    rw [render_all_objects_go render files [], renderLoop_go render _ []]
  · intro f
    simp [List.mem_filter]

end Render3D
